import Mathlib

/-!
Verification of the corpXiv paper-processing pipeline.

The definitions below are a shallow embedding of the Python sources
`scripts/process_paper.py` and `.github/scripts/stamp_pdf.py`.
Pure string/number logic is translated directly; boundary operations
(PDF reading, JSON parsing, the `datetime` clock, Unicode NFKD
normalization) enter as explicit parameters, mirroring the spec's view
of them as external collaborators.  Python `str.strip`, `str.split`,
and the regular-expression scans are modelled over ASCII whitespace and
ASCII letter classes, which is the alphabet the heuristics target.
-/

namespace CorpXiv

/-- Python's `\s` class (ASCII part): space, tab, newline, carriage
return, vertical tab, form feed. -/
def isPySpace (c : Char) : Bool :=
  c = ' ' || c = '\t' || c = '\n' || c = '\r' || c.toNat = 11 || c.toNat = 12

/-- `str.strip()` on a character list. -/
def stripChars (cs : List Char) : List Char :=
  ((cs.dropWhile isPySpace).reverse.dropWhile isPySpace).reverse

/-- `str.strip()`. -/
def pyStrip (s : String) : String := String.mk (stripChars s.toList)

/-- ASCII lowercasing of a string (what the `re.I` scans and
`str.lower` do on the ASCII range). -/
def strLower (s : String) : String := String.mk (s.toList.map Char.toLower)

/-- `re.sub(r'\s+', ' ', s)`: every maximal whitespace run becomes a
single space.  The boolean argument records whether the previous
character was part of a whitespace run. -/
def collapseRuns : List Char → Bool → List Char
  | [], _ => []
  | c :: cs, prevSpace =>
    if isPySpace c then
      if prevSpace then collapseRuns cs true else ' ' :: collapseRuns cs true
    else c :: collapseRuns cs false

/-- `re.sub(r'\s+', ' ', s).strip()`. -/
def collapseWs (s : String) : String :=
  String.mk (stripChars (collapseRuns s.toList false))

/-- Split a character list at every character satisfying `p`, keeping
empty pieces (the behaviour of `re.split` on single characters);
`tok` holds the current piece in reverse. -/
def splitOnPred (p : Char → Bool) : List Char → List Char → List (List Char)
  | [], tok => [tok.reverse]
  | c :: cs, tok =>
    if p c then tok.reverse :: splitOnPred p cs [] else splitOnPred p cs (c :: tok)

/-- `str.split()` with no separator: whitespace-delimited tokens,
empties dropped. -/
def pySplitWs (s : String) : List String :=
  ((splitOnPred isPySpace s.toList []).map String.mk).filter (fun t => t ≠ "")

/-- Case-insensitive literal-word test: do the first characters of `cs`
spell `w` after ASCII lowering?  (`w` is given lowercase.) -/
def lowerEqAt (cs : List Char) (w : List Char) : Bool :=
  (cs.take w.length).map Char.toLower = w

/-- `sep.join(items)`. -/
def joinWith (sep : String) : List String → String
  | [] => ""
  | [x] => x
  | x :: y :: xs => x ++ sep ++ joinWith sep (y :: xs)

/-- Python `f"{n:05d}"` for a natural number: decimal digits,
left-padded with zeros to width at least 5. -/
def pad5 (n : Nat) : String :=
  let s := toString n
  if s.length < 5 then String.mk (List.replicate (5 - s.length) '0') ++ s else s

/-! ## Identifier Registry (`manifest.json`)

`stamp_pdf.py` lines 58-84 (`get_corpxiv_id`) and `process_paper.py`
lines 276-286 (`generate_corpxiv_id`).  The manifest dictionary becomes
a structure; its `papers` dict becomes an insertion-ordered association
list.  The `datetime.now()` readings (`yymm`, `date_str`) and the
path-derived inputs (`relative` key, `category`, `stem`, the
`extract_title` result) are parameters. -/

structure RegistryEntry where
  id : String
  category : String
  submitted : String
  filename : String
  /-- `entry.get('title', path.stem)` tolerates entries without a
  stored title, so the field is optional. -/
  title : Option String
deriving DecidableEq, Repr

structure Manifest where
  next_number : Nat
  papers : List (String × RegistryEntry)
deriving DecidableEq, Repr

/-- Dictionary lookup `manifest['papers'][relative]`. -/
def lookupPaper (ps : List (String × RegistryEntry)) (k : String) :
    Option RegistryEntry :=
  (ps.find? (fun p => p.1 = k)).map (fun p => p.2)

/-- The default registry `{'next_number': 1, 'papers': {}}`. -/
def freshManifest : Manifest := ⟨1, []⟩

/-- `stamp_pdf.py` `get_corpxiv_id(filepath, manifest)`: returns
`(id, category, date, title)` together with the updated manifest.
`relative` is `path.relative_to('papers')`, `stem` is `path.stem`,
`filename` is `path.name`, `extractedTitle` is the `extract_title`
result, and `yymm`/`date_str` are the `datetime.now()` renderings. -/
def get_corpxiv_id (relative category stem filename extractedTitle yymm date_str : String)
    (manifest : Manifest) : (String × String × String × String) × Manifest :=
  match lookupPaper manifest.papers relative with
  | some entry =>
    ((entry.id, category, entry.submitted, entry.title.getD stem), manifest)
  | none =>
    let seq := manifest.next_number
    let corpxiv_id := yymm ++ "." ++ pad5 seq ++ "v1"
    let entry : RegistryEntry :=
      { id := corpxiv_id, category := category, submitted := date_str,
        filename := filename, title := some extractedTitle }
    ((corpxiv_id, category, date_str, extractedTitle),
      { next_number := seq + 1,
        papers := manifest.papers ++ [(relative, entry)] })

/-- `process_paper.py` `generate_corpxiv_id(manifest, category)`:
returns `(id, date)` and the manifest with `next_number` incremented
(this variant records nothing in `papers`). -/
def generate_corpxiv_id (yymm date_str : String) (manifest : Manifest) :
    (String × String) × Manifest :=
  let seq := manifest.next_number
  let corpxiv_id := yymm ++ "." ++ pad5 seq ++ "v1"
  ((corpxiv_id, date_str), { manifest with next_number := seq + 1 })

/-- The per-file loop of `stamp_pdf.py` `main()`: resolve each key in
order against the shared manifest, recording for each call the returned
identifier and the value of `next_number` at the moment of the call. -/
def processKeys (category stem filename extractedTitle yymm date_str : String) :
    List String → Manifest → List (String × Nat) × Manifest
  | [], m => ([], m)
  | k :: ks, m =>
    let n := m.next_number
    let r := get_corpxiv_id k category stem filename extractedTitle yymm date_str m
    let rest := processKeys category stem filename extractedTitle yymm date_str ks r.2
    ((r.1.1, n) :: rest.1, rest.2)

/-! ## Text Extractor: title (`process_paper.py` lines 138-172) -/

/-- `[l.strip() for l in text.split('\n') if l.strip()]`. -/
def nonBlankLines (text : String) : List String :=
  (((splitOnPred (fun c => c = '\n') text.toList []).map
      (fun cs => String.mk (stripChars cs)))).filter (fun l => l ≠ "")

/-- `re.match(r'^abstract', line, re.I)`. -/
def lineStartsAbstract (l : String) : Bool :=
  lowerEqAt l.toList ("abstract".toList)

/-- Does the list contain four consecutive ASCII digits with an `'@'`
somewhere after them?  This is `re.match(r'.*\d{4}.*@', line)`. -/
def digits4ThenAt : List Char → Bool
  | [] => false
  | c :: cs =>
    (match c :: cs with
     | a :: b :: d :: e :: rest =>
       a.isDigit && b.isDigit && d.isDigit && e.isDigit && rest.contains '@'
     | _ => false)
    || digits4ThenAt cs

/-- The author/email break test of the title scan:
`'@' in line or re.match(r'.*\d{4}.*@', line)`. -/
def lineEmailBreak (l : String) : Bool :=
  l.toList.any (fun c => c = '@') || digits4ThenAt l.toList

/-- `re.match(r'^(university|department|school|institute)', line, re.I)`. -/
def lineStartsInstitution (l : String) : Bool :=
  lowerEqAt l.toList ("university".toList) || lowerEqAt l.toList ("department".toList)
    || lowerEqAt l.toList ("school".toList) || lowerEqAt l.toList ("institute".toList)

/-- The `for line in lines[:10]` accumulation loop of
`extract_title_from_text`, with `acc` holding the collected title lines
in reverse. -/
def titleLoop : List String → List String → List String
  | [], acc => acc.reverse
  | l :: rest, acc =>
    if lineStartsAbstract l then acc.reverse
    else if lineEmailBreak l then acc.reverse
    else if lineStartsInstitution l then acc.reverse
    else if l.length < 5 then titleLoop rest acc
    else
      let acc' := l :: acc
      if 3 ≤ acc'.length then acc'.reverse else titleLoop rest acc'

/-- `extract_title_from_text(text)`. -/
def extract_title_from_text (text : String) : String :=
  let lines := nonBlankLines text
  if lines = [] then ""
  else
    let title_lines := titleLoop (lines.take 10) []
    let title := collapseWs (joinWith " " title_lines)
    if 200 < title.length then String.mk (title.toList.take 200) ++ "..." else title

/-- Modelled from the spec's description of the parsed-title algorithm
(spec section 4.2): scan the first 10 non-blank lines, stop at the
first line that matches an abstract header, the email-address test
(realized in the source as "contains `'@'`"; the spec leaves the
pattern abstract), or an institutional-affiliation prefix; skip lines
shorter than 5 characters; keep at most 3 lines, join with a single
space, collapse internal whitespace, truncate to 200 characters and
append an ellipsis marker when truncated. -/
def titleStop (l : String) : Bool :=
  lineStartsAbstract l || l.toList.any (fun c => c = '@') || lineStartsInstitution l

def titleKeep (l : String) : Bool := decide (5 ≤ l.length)

def titleFromTextSpec (text : String) : String :=
  let scanned := ((nonBlankLines text).take 10).takeWhile (fun l => !titleStop l)
  let qualifying := (scanned.filter titleKeep).take 3
  let joined := collapseWs (joinWith " " qualifying)
  if 200 < joined.length then String.mk (joined.toList.take 200) ++ "..." else joined

/-! ## Text Extractor: authors (`process_paper.py` lines 175-208)

The candidate-line test is `re.match(r'^[A-Z][a-z]+(\s+[A-Z]\.?\s*)*[A-Z][a-z]+', line)`.
Its backtracking search is realized below by `nameTailStart`/`nameTailIter`:
after the leading capitalized word, either the final capitalized word
follows immediately, or a middle token `\s+[A-Z]\.?` is consumed and the
scan continues; after at least one middle token the pending `\s*` also
lets the final word follow a whitespace run directly. -/

def isUpAZ (c : Char) : Bool := 'A' ≤ c && c ≤ 'Z'

def isLoAZ (c : Char) : Bool := 'a' ≤ c && c ≤ 'z'

/-- Does `[A-Z][a-z]+` match here (as a prefix)? -/
def finalCapAt : List Char → Bool
  | a :: b :: _ => isUpAZ a && isLoAZ b
  | _ => false

/-- Consume the optional `\.` of a middle token. -/
def dropDot : List Char → List Char
  | '.' :: rest => rest
  | cs => cs

/-- Matches `\s*(\s+[A-Z]\.?\s*)*[A-Z][a-z]+` as a prefix: the state
reached right after a middle token's `[A-Z]\.?`.  The fuel bounds the
number of middle tokens; each consumes at least two characters. -/
def nameTailIter : Nat → List Char → Bool
  | 0, _ => false
  | fuel + 1, cs =>
    finalCapAt cs ||
      (match cs with
       | c :: _ =>
         isPySpace c &&
           (match cs.dropWhile isPySpace with
            | d :: rest =>
              finalCapAt (d :: rest) || (isUpAZ d && nameTailIter fuel (dropDot rest))
            | [] => false)
       | [] => false)

/-- Matches `(\s+[A-Z]\.?\s*)*[A-Z][a-z]+` as a prefix: the state right
after the leading `[A-Z][a-z]+` (no pending `\s*`, so the final word may
not follow bare whitespace without a middle token). -/
def nameTailStart (fuel : Nat) (cs : List Char) : Bool :=
  finalCapAt cs ||
    (match cs with
     | c :: _ =>
       isPySpace c &&
         (match cs.dropWhile isPySpace with
          | d :: rest => isUpAZ d && nameTailIter fuel (dropDot rest)
          | [] => false)
     | [] => false)

/-- The leading `[a-z]+` with its backtracking: consume at least one
lowercase letter, and after each one optionally hand over to the tail. -/
def lowerPlusTail : List Char → Bool
  | [] => false
  | c :: rest => isLoAZ c && (nameTailStart rest.length rest || lowerPlusTail rest)

/-- `re.match(r'^[A-Z][a-z]+(\s+[A-Z]\.?\s*)*[A-Z][a-z]+', line)`. -/
def matchNameLine (l : String) : Bool :=
  match l.toList with
  | c :: rest => isUpAZ c && lowerPlusTail rest
  | [] => false

/-- `re.split(r',\s*|\s+and\s+', line)` as a left-to-right scan;
`tok` holds the current token in reverse.  The fuel only serves
structural termination: each step consumes at least one character, so
`length + 1` is always enough. -/
def splitScan : Nat → List Char → List Char → List String
  | 0, _, tok => [String.mk tok.reverse]
  | _ + 1, [], tok => [String.mk tok.reverse]
  | fuel + 1, c :: cs, tok =>
    if c = ',' then
      String.mk tok.reverse :: splitScan fuel (cs.dropWhile isPySpace) []
    else if isPySpace c then
      match (c :: cs).dropWhile isPySpace with
      | 'a' :: 'n' :: 'd' :: rest =>
        if rest.takeWhile isPySpace ≠ [] then
          String.mk tok.reverse :: splitScan fuel (rest.dropWhile isPySpace) []
        else splitScan fuel cs (c :: tok)
      | _ => splitScan fuel cs (c :: tok)
    else splitScan fuel cs (c :: tok)

def splitAuthorsLine (l : String) : List String :=
  splitScan (l.toList.length + 1) l.toList []

/-- The footnote-marker characters stripped from author tokens. -/
def authorMarkers : List Char := ['*', '†', '‡', '§', '¶']

/-- `part.strip()` then `re.sub(r'[\d\*†‡§¶]+', '', part).strip()`. -/
def cleanPart (part : String) : String :=
  let p := pyStrip part
  pyStrip (String.mk (p.toList.filter (fun c => !(c.isDigit || authorMarkers.contains c))))

/-- `part and len(part) > 3 and not '@' in part` and
`re.match(r'^[A-Z][a-z]+', part)`. -/
def keepPart (part : String) : Bool :=
  part ≠ "" && 3 < part.length && !(part.toList.any (fun c => c = '@')) &&
    (match part.toList with
     | a :: b :: _ => isUpAZ a && isLoAZ b
     | _ => false)

/-- The per-line body of the author loop. -/
def authorsFromLine (l : String) : List String :=
  if matchNameLine l then
    (splitAuthorsLine l).filterMap (fun part =>
      let p := cleanPart part
      if keepPart p then some p else none)
  else []

/-- The `for i, line in enumerate(lines[:20])` loop: skip index 0,
break at an abstract header, otherwise collect per-line candidates. -/
def authorScan : List String → Nat → List String
  | [], _ => []
  | l :: rest, i =>
    if i < 1 then authorScan rest (i + 1)
    else if lineStartsAbstract l then []
    else authorsFromLine l ++ authorScan rest (i + 1)

/-- `extract_authors_from_text(text)`. -/
def extract_authors_from_text (text : String) : List String :=
  (authorScan ((nonBlankLines text).take 20) 0).take 10

/-! ## Text Extractor: abstract (`process_paper.py` lines 211-228)

`re.search(r'(?:^|\n)\s*(?:ABSTRACT|Abstract)\s*[:\.\n]\s*(.*?)'`
`r'(?=\n\s*(?:1\.?\s*Introduction|INTRODUCTION|Keywords|KEYWORDS|I\.\s|1\s+[A-Z])|\Z)',`
`text, re.DOTALL | re.IGNORECASE)`.

The search is realized as a leftmost scan for the header; the lazy
capture ends at the first lookahead position (a newline followed by an
introduction/keywords marker) or at the end of the text. -/

/-- `\s*` (greedy, followed in the pattern by a non-space requirement). -/
def skipSpaces (cs : List Char) : List Char := cs.dropWhile isPySpace

/-- `\s*[:\.\n]\s*` directly after the header word, with the regex
engine's backtracking resolved: the separator is the first non-space
character when that is `:` or `.`, and otherwise the last `\n` of the
whitespace run; the trailing `\s*` then runs to the first non-space
character.  Returns the capture start, or `none` when no separator
exists (the engine then abandons this header position). -/
def afterSep (cs : List Char) : Option (List Char) :=
  let run := cs.takeWhile isPySpace
  let after := cs.dropWhile isPySpace
  match after with
  | c :: rest =>
    if c = ':' || c = '.' then some (skipSpaces rest)
    else if run.contains '\n' then some after
    else none
  | [] => if run.contains '\n' then some [] else none

/-- Attempt the header `\s*(?:ABSTRACT|Abstract)\s*[:\.\n]\s*` at a
position where the `(?:^|\n)` anchor has already been consumed. -/
def headerAt (cs : List Char) : Option (List Char) :=
  let cs' := skipSpaces cs
  if lowerEqAt cs' ("abstract".toList) then afterSep (cs'.drop 8) else none

/-- The scan of `re.search` over anchor positions after the start of
the text: each `\n` may anchor the header. -/
def findHeaderFrom : List Char → Option (List Char)
  | [] => none
  | c :: cs =>
    if c = '\n' then
      match headerAt cs with
      | some r => some r
      | none => findHeaderFrom cs
    else findHeaderFrom cs

/-- Leftmost match of the header: position 0 (the `^` branch of the
anchor), then every newline. -/
def findHeader (cs : List Char) : Option (List Char) :=
  match headerAt cs with
  | some r => some r
  | none => findHeaderFrom cs

/-- The terminator lookahead body after its leading `\n`:
`\s*(?:1\.?\s*Introduction|INTRODUCTION|Keywords|KEYWORDS|I\.\s|1\s+[A-Z])`
under `re.IGNORECASE` (so `[A-Z]` also matches lowercase letters). -/
def termAlt (cs : List Char) : Bool :=
  match skipSpaces cs with
  | [] => false
  | c :: rest =>
    (c = '1' &&
      (let r2 := dropDot rest
       lowerEqAt (skipSpaces r2) ("introduction".toList)))
    || lowerEqAt (c :: rest) ("introduction".toList)
    || lowerEqAt (c :: rest) ("keywords".toList)
    || (Char.toLower c = 'i' &&
        (match rest with
         | '.' :: d :: _ => isPySpace d
         | _ => false))
    || (c = '1' &&
        (rest.takeWhile isPySpace ≠ [] &&
          (match rest.dropWhile isPySpace with
           | d :: _ => d.isAlpha
           | [] => false)))

/-- The lazy capture `(.*?)` up to the first terminator lookahead or the
end of the text (`\Z`). -/
def captureUntilTerm : List Char → List Char
  | [] => []
  | c :: cs => if c = '\n' && termAlt cs then [] else c :: captureUntilTerm cs

/-- `\bkeywords?\b` matches here (`prev` is the preceding character, if
any): a word boundary, the word `keyword` case-insensitively, an
optional `s`, and a word boundary after. -/
def kwMatchAt (prev : Option Char) (cs : List Char) : Bool :=
  (match prev with
   | none => true
   | some c => !(c.isAlpha || c.isDigit || c = '_'))
  && lowerEqAt cs ("keyword".toList)
  && (match cs.drop 7 with
      | c :: rest =>
        if Char.toLower c = 's' then
          match rest with
          | [] => true
          | d :: _ => !(d.isAlpha || d.isDigit || d = '_')
        else !(c.isAlpha || c.isDigit || c = '_')
      | [] => true)

/-- `re.split(r'\bkeywords?\b', abstract, flags=re.I)[0]`: everything
before the first `keyword(s)` word. -/
def keywordSplitPre : Option Char → List Char → List Char
  | _, [] => []
  | prev, c :: cs =>
    if kwMatchAt prev (c :: cs) then [] else c :: keywordSplitPre (some c) cs

/-- `extract_abstract_from_text(text)`. -/
def extract_abstract_from_text (text : String) : String :=
  match findHeader text.toList with
  | none => ""
  | some captureStart =>
    let captured := captureUntilTerm captureStart
    let ab := stripChars captured
    let ab := collapseRuns ab false
    let ab := stripChars (keywordSplitPre none ab)
    String.mk ab

/-! ## Text Extractor: the assembled record
(`process_paper.py` lines 39-53 and 94-135)

`extract_metadata` reads the PDF through `pypdf`; the embedding takes
the boundary outputs of that read — the embedded metadata title and
author fields (`None` when absent, with Python truthiness applied to
the strings) and the first page's text — and performs the pure
assembly that follows. -/

inductive Confidence where
  | metadata
  | parsed
  | notFound
deriving DecidableEq, Repr

/-- The `result.confidence` dictionary; its only keys are the three
field names. -/
structure ConfidenceMap where
  title : Option Confidence := none
  authors : Option Confidence := none
  abstract : Option Confidence := none
deriving DecidableEq, Repr

structure ExtractionResult where
  title : String := ""
  authors : List String := []
  abstract : String := ""
  raw_text : String := ""
  confidence : ConfidenceMap := {}
deriving DecidableEq, Repr

/-- `meta.author` split: `re.split(r'[;,]', author)`, strip each piece,
drop empties. -/
def splitMetaAuthors (a : String) : List String :=
  (((splitOnPred (fun c => c = ';' || c = ',') a.toList []).map
      (fun cs => String.mk (stripChars cs)))).filter (fun s => s ≠ "")

/-- `extract_metadata` after the `pypdf` read: `metaTitle`/`metaAuthor`
are the embedded document metadata fields and `text` is the first-page
text. -/
def extract_metadata (metaTitle metaAuthor : Option String) (text : String) :
    ExtractionResult :=
  let r : ExtractionResult := { raw_text := text }
  let r :=
    match metaTitle with
    | some t =>
      if t ≠ "" then
        { r with title := pyStrip t,
                 confidence := { r.confidence with title := some .metadata } }
      else r
    | none => r
  let r :=
    match metaAuthor with
    | some a =>
      if a ≠ "" then
        { r with authors := splitMetaAuthors a,
                 confidence := { r.confidence with authors := some .metadata } }
      else r
    | none => r
  let r :=
    if r.title = "" then
      { r with title := extract_title_from_text text,
               confidence := { r.confidence with title := some .parsed } }
    else r
  let r :=
    if r.authors = [] then
      { r with authors := extract_authors_from_text text,
               confidence := { r.confidence with authors := some .parsed } }
    else r
  let ab := extract_abstract_from_text text
  { r with abstract := ab,
           confidence := { r.confidence with
             abstract := some (if ab ≠ "" then .parsed else .notFound) } }

/-! ## Content hash (`process_paper.py` lines 88-91)

`get_pdf_hash` is `hashlib.sha256(f.read()).hexdigest()[:16]`.
SHA-256 (FIPS 180-4) is implemented below over `Nat` with explicit
reduction modulo `2^32`; the file's raw bytes are a `List Nat` of
values below 256. -/

def w32 (n : Nat) : Nat := n % 4294967296

def rotr (n x : Nat) : Nat := w32 ((x >>> n) ||| (x <<< (32 - n)))

def shaCh (x y z : Nat) : Nat := (x &&& y) ^^^ ((x ^^^ 4294967295) &&& z)

def shaMaj (x y z : Nat) : Nat := (x &&& y) ^^^ (x &&& z) ^^^ (y &&& z)

def bsig0 (x : Nat) : Nat := rotr 2 x ^^^ rotr 13 x ^^^ rotr 22 x

def bsig1 (x : Nat) : Nat := rotr 6 x ^^^ rotr 11 x ^^^ rotr 25 x

def ssig0 (x : Nat) : Nat := rotr 7 x ^^^ rotr 18 x ^^^ (x >>> 3)

def ssig1 (x : Nat) : Nat := rotr 17 x ^^^ rotr 19 x ^^^ (x >>> 10)

/-- The 64 SHA-256 round constants of FIPS 180-4, in decimal. -/
def K256 : List Nat :=
  [1116352408, 1899447441, 3049323471, 3921009573,
   961987163, 1508970993, 2453635748, 2870763221,
   3624381080, 310598401, 607225278, 1426881987,
   1925078388, 2162078206, 2614888103, 3248222580,
   3835390401, 4022224774, 264347078, 604807628,
   770255983, 1249150122, 1555081692, 1996064986,
   2554220882, 2821834349, 2952996808, 3210313671,
   3336571891, 3584528711, 113926993, 338241895,
   666307205, 773529912, 1294757372, 1396182291,
   1695183700, 1986661051, 2177026350, 2456956037,
   2730485921, 2820302411, 3259730800, 3345764771,
   3516065817, 3600352804, 4094571909, 275423344,
   430227734, 506948616, 659060556, 883997877,
   958139571, 1322822218, 1537002063, 1747873779,
   1955562222, 2024104815, 2227730452, 2361852424,
   2428436474, 2756734187, 3204031479, 3329325298]

structure H8 where
  a : Nat
  b : Nat
  c : Nat
  d : Nat
  e : Nat
  f : Nat
  g : Nat
  h : Nat
deriving DecidableEq, Repr

/-- The initial SHA-256 chaining value of FIPS 180-4, in decimal. -/
def initH : H8 :=
  ⟨1779033703, 3144134277, 1013904242, 2773480762,
   1359893119, 2600822924, 528734635, 1541459225⟩

def roundStep (st : H8) (kw : Nat) : H8 :=
  let t1 := w32 (st.h + bsig1 st.e + shaCh st.e st.f st.g + kw)
  let t2 := w32 (bsig0 st.a + shaMaj st.a st.b st.c)
  ⟨w32 (t1 + t2), st.a, st.b, st.c, w32 (st.d + t1), st.e, st.f, st.g⟩

def addH (x y : H8) : H8 :=
  ⟨w32 (x.a + y.a), w32 (x.b + y.b), w32 (x.c + y.c), w32 (x.d + y.d),
   w32 (x.e + y.e), w32 (x.f + y.f), w32 (x.g + y.g), w32 (x.h + y.h)⟩

/-- Big-endian 32-bit words from bytes. -/
def bytesToWords : List Nat → List Nat
  | b0 :: b1 :: b2 :: b3 :: rest =>
    (b0 * 16777216 + b1 * 65536 + b2 * 256 + b3) :: bytesToWords rest
  | _ => []

/-- Extend the 16-word block schedule by the given number of words. -/
def extendSchedule : Nat → List Nat → List Nat
  | 0, w => w
  | t + 1, w =>
    let n := w.length
    extendSchedule t
      (w ++ [w32 (ssig1 (w.getD (n - 2) 0) + w.getD (n - 7) 0
                  + ssig0 (w.getD (n - 15) 0) + w.getD (n - 16) 0)])

/-- SHA-256 padding: `0x80`, zeros to 56 mod 64, 8-byte big-endian bit
length. -/
def padMsg (msg : List Nat) : List Nat :=
  let L := msg.length
  let k := (120 - (L + 1) % 64) % 64
  let bl := 8 * L
  msg ++ 128 :: List.replicate k 0 ++
    [bl / 72057594037927936 % 256, bl / 281474976710656 % 256,
     bl / 1099511627776 % 256, bl / 4294967296 % 256,
     bl / 16777216 % 256, bl / 65536 % 256, bl / 256 % 256, bl % 256]

/-- Split into 64-byte blocks.  The fuel only serves structural
termination: each step consumes 64 bytes, so the length is always
enough. -/
def chunks64Fuel : Nat → List Nat → List (List Nat)
  | _, [] => []
  | 0, _ => []
  | fuel + 1, b :: rest => ((b :: rest).take 64) :: chunks64Fuel fuel ((b :: rest).drop 64)

def chunks64 (bs : List Nat) : List (List Nat) := chunks64Fuel bs.length bs

def sha256words (msg : List Nat) : H8 :=
  (chunks64 (padMsg msg)).foldl
    (fun st block =>
      let w := extendSchedule 48 (bytesToWords block)
      let kw := List.zipWith (fun k wi => w32 (k + wi)) K256 w
      addH st (kw.foldl roundStep st))
    initH

def hexDigitChar (n : Nat) : Char :=
  if n < 10 then Char.ofNat (48 + n) else Char.ofNat (87 + n)

def wordHex8 (w : Nat) : List Char :=
  [hexDigitChar (w / 268435456 % 16), hexDigitChar (w / 16777216 % 16),
   hexDigitChar (w / 1048576 % 16), hexDigitChar (w / 65536 % 16),
   hexDigitChar (w / 4096 % 16), hexDigitChar (w / 256 % 16),
   hexDigitChar (w / 16 % 16), hexDigitChar (w % 16)]

/-- `hashlib.sha256(bytes).hexdigest()`. -/
def sha256hex (msg : List Nat) : String :=
  let d := sha256words msg
  String.mk (wordHex8 d.a ++ wordHex8 d.b ++ wordHex8 d.c ++ wordHex8 d.d ++
             wordHex8 d.e ++ wordHex8 d.f ++ wordHex8 d.g ++ wordHex8 d.h)

/-- `get_pdf_hash`: `hashlib.sha256(f.read()).hexdigest()[:16]`
(a Python slice takes the first 16 code points). -/
def get_pdf_hash (pdfBytes : List Nat) : String :=
  String.mk ((sha256hex pdfBytes).toList.take 16)

/-! ## Guardrail Validator (`process_paper.py` lines 34-36, 56-60, 231-273) -/

def MIN_ABSTRACT_WORDS : Nat := 50

def MIN_TITLE_LENGTH : Nat := 10

structure ValidationResult where
  valid : Bool
  errors : List String
  warnings : List String
deriving DecidableEq, Repr

/-- An entry of `data/papers.yml`, shaped by `add_to_papers_yaml`. -/
structure Paper where
  id : String
  title : String
  authors : List String
  date : String
  category : String
  slug : String
  abstract : String
  pdf : String
  hash : String
deriving DecidableEq, Repr

/-- `validate_submission(extraction, filepath, papers, manifest)`.
The file named by `filepath` enters as its raw bytes (hashed by
`get_pdf_hash`) and as the outcome of the `PdfReader` probe
(`Except.ok n` is a successful open with `n` pages, `Except.error e`
an exception with message `e`). -/
def validate_submission (extraction : ExtractionResult) (pdfBytes : List Nat)
    (papers : List Paper) (pdfPages : Except String Nat) (_manifest : Manifest) :
    ValidationResult :=
  let errors : List String :=
    if extraction.title = "" || extraction.title.length < MIN_TITLE_LENGTH then
      ["Title too short or missing (minimum " ++ toString MIN_TITLE_LENGTH
        ++ " characters)"]
    else []
  let warnings : List String :=
    if extraction.authors = [] then
      ["Could not extract authors — please provide manually"]
    else []
  let abstract_words :=
    if extraction.abstract = "" then 0 else (pySplitWs extraction.abstract).length
  let errors := errors ++
    (if abstract_words < MIN_ABSTRACT_WORDS then
      ["Abstract too short (" ++ toString abstract_words ++ " words, minimum "
        ++ toString MIN_ABSTRACT_WORDS ++ ")"]
    else [])
  let pdf_hash := get_pdf_hash pdfBytes
  let errors := errors ++
    (if papers.any (fun p => p.hash = pdf_hash) then
      ["Duplicate paper — this PDF has already been submitted"]
    else [])
  let errors := errors ++
    (match pdfPages with
     | .ok 0 => ["PDF has no pages"]
     | .ok (_ + 1) => []
     | .error e => ["Invalid PDF file: " ++ e])
  { valid := errors.isEmpty, errors := errors, warnings := warnings }

/-! ## Pipeline Orchestrator (`process_paper.py` lines 578-686) -/

/-- Replace each run of characters outside `[a-z0-9]` with a single
hyphen (`re.sub(r'[^a-z0-9]+', '-', slug)`). -/
def dashRuns : List Char → Bool → List Char
  | [], _ => []
  | c :: cs, prevDash =>
    if ('a' ≤ c && c ≤ 'z') || c.isDigit then c :: dashRuns cs false
    else if prevDash then dashRuns cs true
    else '-' :: dashRuns cs true

/-- `slug.strip('-')`. -/
def stripDashes (cs : List Char) : List Char :=
  ((cs.dropWhile (fun c => c = '-')).reverse.dropWhile (fun c => c = '-')).reverse

/-- `title_to_slug(title)`; `nfkd` is `unicodedata.normalize('NFKD', ·)`,
an external table-driven step taken as a parameter. -/
def title_to_slug (nfkd : String → String) (title : String) : String :=
  let slug := strLower (nfkd title)
  let slug := stripDashes (dashRuns slug.toList false)
  String.mk (slug.take 60)

/-- The `process_paper` overrides: `if title: ...` etc., with Python
truthiness on the provided strings/list. -/
def applyOverrides (e : ExtractionResult) (title : Option String)
    (authors : Option (List String)) (abstract : Option String) :
    ExtractionResult :=
  let e :=
    match title with
    | some t => if t ≠ "" then { e with title := t } else e
    | none => e
  let e :=
    match authors with
    | some a => if a ≠ [] then { e with authors := a } else e
    | none => e
  match abstract with
  | some ab => if ab ≠ "" then { e with abstract := ab } else e
  | none => e

/-- Whether each downstream collaborator call (`stamp_pdf`,
`generate_landing_page`, the `papers.yml` write, the sitemap write)
completes or raises. -/
structure Env where
  stampOk : Bool := true
  landingOk : Bool := true
  papersYamlOk : Bool := true
  sitemapOk : Bool := true
deriving DecidableEq, Repr

/-- An exception escaping `process_paper`, tagged by the step that
raised it. -/
inductive PyError where
  | stampRaised
  | landingRaised
  | papersYamlRaised
  | sitemapRaised
deriving DecidableEq, Repr

/-- The persistent state `process_paper` touches: `manifest.json`,
`data/papers.yml`, the stamped PDF, the landing pages, `sitemap.xml`. -/
structure Disk where
  manifest : Manifest
  papers : List Paper
  stampedIds : List String := []
  landingPages : List (String × String × String) := []
  sitemap : Option (List Paper) := none
deriving DecidableEq, Repr

/-- The dictionary `process_paper` returns. -/
inductive ProcResult where
  | error (errors warnings : List String) (extraction : ExtractionResult)
  | success (corpxiv_id slug title : String) (authors : List String)
      (abstract category date : String) (warnings : List String)
deriving DecidableEq, Repr

/-- `process_paper(filepath, category, title, authors, abstract)`.
The PDF read enters as `metaTitle`/`metaAuthor`/`firstPageText` (fed to
`extract_metadata`), the raw bytes, and the `PdfReader` page probe;
`yymm`/`date_str` are the `datetime.now()` renderings; `env` says which
downstream collaborator calls raise.  The returned `Disk` is the
persistent state when the call returns or when the exception escapes:
a step that raises performs no write of its own, and `save_manifest`
runs only after the stamp, the landing page, and the `papers.yml`
update have all succeeded (source order, lines 633-674). -/
def process_paper (nfkd : String → String)
    (metaTitle metaAuthor : Option String) (firstPageText : String)
    (category : String)
    (titleOv : Option String) (authorsOv : Option (List String))
    (abstractOv : Option String)
    (pdfBytes : List Nat) (pdfPages : Except String Nat)
    (yymm date_str : String) (env : Env) (disk : Disk) :
    Except PyError ProcResult × Disk :=
  let extraction :=
    applyOverrides (extract_metadata metaTitle metaAuthor firstPageText)
      titleOv authorsOv abstractOv
  let papers := disk.papers
  let manifest := disk.manifest
  let validation := validate_submission extraction pdfBytes papers pdfPages manifest
  if validation.valid = false then
    (.ok (.error validation.errors validation.warnings extraction), disk)
  else
    let idd := generate_corpxiv_id yymm date_str manifest
    let corpxiv_id := idd.1.1
    let manifest' := idd.2
    let slug := title_to_slug nfkd extraction.title
    if env.stampOk = false then (.error .stampRaised, disk)
    else
      let disk1 := { disk with stampedIds := disk.stampedIds ++ [corpxiv_id] }
      if env.landingOk = false then (.error .landingRaised, disk1)
      else
        let disk2 :=
          { disk1 with landingPages :=
              disk1.landingPages ++ [(category, slug, corpxiv_id)] }
        let pdf_hash := get_pdf_hash pdfBytes
        let entry : Paper :=
          { id := corpxiv_id, title := extraction.title,
            authors := extraction.authors, date := date_str,
            category := category, slug := slug,
            abstract := extraction.abstract, pdf := slug ++ ".pdf",
            hash := pdf_hash }
        if env.papersYamlOk = false then (.error .papersYamlRaised, disk2)
        else
          let disk3 := { disk2 with papers := entry :: disk2.papers }
          let disk4 := { disk3 with manifest := manifest' }
          if env.sitemapOk = false then (.error .sitemapRaised, disk4)
          else
            let disk5 := { disk4 with sitemap := some disk4.papers }
            (.ok (.success corpxiv_id slug extraction.title extraction.authors
                extraction.abstract category date_str validation.warnings),
              disk5)

/-! ## Registry load (`process_paper.py` lines 63-67 and
`stamp_pdf.py` lines 21-25; both define the same `load_manifest`) -/

inductive LoadErr where
  | storageCorruption
deriving DecidableEq, Repr

/-- `load_manifest()`: the file system enters as `none` (no
`manifest.json`) or `some content`; `parse` is `json.load`, whose
raised `JSONDecodeError` is the `StorageCorruption` failure. -/
def load_manifest (parse : String → Option Manifest) (file : Option String) :
    Except LoadErr Manifest :=
  match file with
  | some content =>
    match parse content with
    | some m => .ok m
    | none => .error .storageCorruption
  | none => .ok freshManifest

/-! ## Registry lemmas -/

theorem lookupPaper_none_find? (ps : List (String × RegistryEntry)) (k : String)
    (h : lookupPaper ps k = none) :
    ps.find? (fun p => p.1 = k) = none := by
  cases hf : ps.find? (fun p => p.1 = k) with
  | none => rfl
  | some v => simp [lookupPaper, hf] at h

theorem lookupPaper_append_self (ps : List (String × RegistryEntry))
    (k : String) (e : RegistryEntry) (h : lookupPaper ps k = none) :
    lookupPaper (ps ++ [(k, e)]) k = some e := by
  simp only [lookupPaper, List.find?_append, lookupPaper_none_find? ps k h,
    Option.none_or]
  simp [List.find?]

theorem lookupPaper_append_ne (ps : List (String × RegistryEntry))
    (k k' : String) (e : RegistryEntry) (hne : k' ≠ k)
    (h : lookupPaper ps k' = none) :
    lookupPaper (ps ++ [(k, e)]) k' = none := by
  simp only [lookupPaper, List.find?_append, lookupPaper_none_find? ps k' h,
    Option.none_or]
  simp [List.find?, Ne.symm hne]

/-- C1 — Idempotent identifier assignment: when `key` already has an
entry, `get_corpxiv_id` returns the stored identifier and date and
leaves the manifest (in particular `next_number`) untouched; and for an
arbitrary manifest, calling `get_corpxiv_id` twice with the same key
returns the identical identifier both times while the second call
changes nothing. -/
theorem c1_idempotent_assignment
    (m m₀ : Manifest) (key cat stem fn ti yymm ds k₀ c₀ s₀ f₀ t₀ y₀ d₀ : String)
    (e : RegistryEntry) (h : lookupPaper m.papers key = some e) :
    get_corpxiv_id key cat stem fn ti yymm ds m
        = ((e.id, cat, e.submitted, e.title.getD stem), m)
    ∧ (get_corpxiv_id k₀ c₀ s₀ f₀ t₀ y₀ d₀
          (get_corpxiv_id k₀ c₀ s₀ f₀ t₀ y₀ d₀ m₀).2).1.1
        = (get_corpxiv_id k₀ c₀ s₀ f₀ t₀ y₀ d₀ m₀).1.1
    ∧ (get_corpxiv_id k₀ c₀ s₀ f₀ t₀ y₀ d₀
          (get_corpxiv_id k₀ c₀ s₀ f₀ t₀ y₀ d₀ m₀).2).2
        = (get_corpxiv_id k₀ c₀ s₀ f₀ t₀ y₀ d₀ m₀).2 := by
  refine ⟨by unfold get_corpxiv_id; rw [h], ?_⟩
  cases hl : lookupPaper m₀.papers k₀ with
  | some e₀ =>
    constructor <;> simp only [get_corpxiv_id, hl]
  | none =>
    have hself := lookupPaper_append_self m₀.papers k₀
      { id := y₀ ++ "." ++ pad5 m₀.next_number ++ "v1", category := c₀,
        submitted := d₀, filename := f₀, title := some t₀ } hl
    constructor <;> simp only [get_corpxiv_id, hl, hself]

theorem c1_witness :
    lookupPaper [("cs/x.pdf", RegistryEntry.mk "2501.00007v1" "cs" "2025-01-02" "x.pdf" (some "T"))] "cs/x.pdf"
        = some (RegistryEntry.mk "2501.00007v1" "cs" "2025-01-02" "x.pdf" (some "T"))
    ∧ (get_corpxiv_id "cs/x.pdf" "cs" "x" "x.pdf" "T2" "2502" "2025-02-01"
          (Manifest.mk 8 [("cs/x.pdf", RegistryEntry.mk "2501.00007v1" "cs" "2025-01-02" "x.pdf" (some "T"))])
        = (("2501.00007v1", "cs", "2025-01-02", "T"),
           Manifest.mk 8 [("cs/x.pdf", RegistryEntry.mk "2501.00007v1" "cs" "2025-01-02" "x.pdf" (some "T"))])
       ∧ (get_corpxiv_id "k" "c" "s" "f" "t" "2501" "d"
             (get_corpxiv_id "k" "c" "s" "f" "t" "2501" "d" freshManifest).2).1.1
           = (get_corpxiv_id "k" "c" "s" "f" "t" "2501" "d" freshManifest).1.1
       ∧ (get_corpxiv_id "k" "c" "s" "f" "t" "2501" "d"
             (get_corpxiv_id "k" "c" "s" "f" "t" "2501" "d" freshManifest).2).2
           = (get_corpxiv_id "k" "c" "s" "f" "t" "2501" "d" freshManifest).2) :=
  ⟨by decide,
   c1_idempotent_assignment
     (Manifest.mk 8 [("cs/x.pdf", RegistryEntry.mk "2501.00007v1" "cs" "2025-01-02" "x.pdf" (some "T"))])
     freshManifest "cs/x.pdf" "cs" "x" "x.pdf" "T2" "2502" "2025-02-01"
     "k" "c" "s" "f" "t" "2501" "d"
     (RegistryEntry.mk "2501.00007v1" "cs" "2025-01-02" "x.pdf" (some "T"))
     (by decide)⟩

theorem processKeys_assigns (cat stem fn ti yymm ds : String) (ks : List String) :
    ∀ m : Manifest, ks.Nodup → (∀ k ∈ ks, lookupPaper m.papers k = none) →
      (processKeys cat stem fn ti yymm ds ks m).1
        = (List.range' m.next_number ks.length).map
            (fun n => (yymm ++ "." ++ pad5 n ++ "v1", n))
      ∧ (processKeys cat stem fn ti yymm ds ks m).2.next_number
        = m.next_number + ks.length := by
  induction ks with
  | nil => intro m _ _; simp [processKeys]
  | cons k ks ih =>
    intro m hnd hfresh
    have hk : lookupPaper m.papers k = none := hfresh k (by simp)
    have hnd' : ks.Nodup := hnd.of_cons
    have hne : ∀ k' ∈ ks, k' ≠ k := by
      intro k' hk' heq
      exact (List.nodup_cons.mp hnd).1 (heq ▸ hk')
    have hfresh' : ∀ k' ∈ ks,
        lookupPaper (m.papers ++
          [(k, { id := yymm ++ "." ++ pad5 m.next_number ++ "v1",
                 category := cat, submitted := ds, filename := fn,
                 title := some ti : RegistryEntry})]) k' = none := by
      intro k' hk'
      exact lookupPaper_append_ne m.papers k k' _ (hne k' hk') (hfresh k' (by simp [hk']))
    have := ih (Manifest.mk (m.next_number + 1)
      (m.papers ++
        [(k, { id := yymm ++ "." ++ pad5 m.next_number ++ "v1",
               category := cat, submitted := ds, filename := fn,
               title := some ti : RegistryEntry})])) hnd' hfresh'
    refine ⟨?_, ?_⟩
    · show ((get_corpxiv_id k cat stem fn ti yymm ds m).1.1, m.next_number)
          :: (processKeys cat stem fn ti yymm ds ks _).1 = _
      rw [List.length_cons, List.range'_succ, List.map_cons]
      unfold get_corpxiv_id
      rw [hk]
      simp only []
      exact congrArg _ (by rw [← this.1])
    · show (processKeys cat stem fn ti yymm ds ks
          (get_corpxiv_id k cat stem fn ti yymm ds m).2).2.next_number = _
      unfold get_corpxiv_id
      rw [hk]
      simp only [List.length_cons]
      rw [show (m.next_number + (ks.length + 1)) = (m.next_number + 1) + ks.length by omega]
      exact this.2

/-- C3 — Strict monotonicity: resolving any list of distinct new keys
against a fresh registry assigns the sequence numbers `1..N` in call
order (no gaps, no repeats), the returned identifiers carry exactly
those sequence numbers, and `next_number` ends at `N + 1`. -/
theorem c3_strict_monotonicity (cat stem fn ti yymm ds : String)
    (ks : List String) (hnd : ks.Nodup) :
    (processKeys cat stem fn ti yymm ds ks freshManifest).1.map Prod.snd
        = List.range' 1 ks.length
    ∧ (processKeys cat stem fn ti yymm ds ks freshManifest).1.map Prod.fst
        = (List.range' 1 ks.length).map (fun n => yymm ++ "." ++ pad5 n ++ "v1")
    ∧ (processKeys cat stem fn ti yymm ds ks freshManifest).2.next_number
        = ks.length + 1 := by
  have h := processKeys_assigns cat stem fn ti yymm ds ks freshManifest hnd
    (by intro k _; rfl)
  rw [show freshManifest.next_number = 1 from rfl] at h
  refine ⟨?_, ?_, ?_⟩
  · rw [h.1, List.map_map]; simp [Function.comp_def]
  · rw [h.1, List.map_map]; simp [Function.comp_def]
  · rw [h.2]; show 1 + ks.length = ks.length + 1; omega

theorem c3_witness :
    (["papers/cs/a.pdf", "papers/cs/b.pdf", "papers/math/c.pdf"] : List String).Nodup
    ∧ ((processKeys "cs" "a" "a.pdf" "T" "2501" "2025-01-15"
          ["papers/cs/a.pdf", "papers/cs/b.pdf", "papers/math/c.pdf"] freshManifest).1.map Prod.snd
        = List.range' 1 (["papers/cs/a.pdf", "papers/cs/b.pdf", "papers/math/c.pdf"] : List String).length
       ∧ (processKeys "cs" "a" "a.pdf" "T" "2501" "2025-01-15"
          ["papers/cs/a.pdf", "papers/cs/b.pdf", "papers/math/c.pdf"] freshManifest).1.map Prod.fst
        = (List.range' 1 (["papers/cs/a.pdf", "papers/cs/b.pdf", "papers/math/c.pdf"] : List String).length).map
            (fun n => "2501" ++ "." ++ pad5 n ++ "v1")
       ∧ (processKeys "cs" "a" "a.pdf" "T" "2501" "2025-01-15"
          ["papers/cs/a.pdf", "papers/cs/b.pdf", "papers/math/c.pdf"] freshManifest).2.next_number
        = (["papers/cs/a.pdf", "papers/cs/b.pdf", "papers/math/c.pdf"] : List String).length + 1) :=
  ⟨by decide,
   c3_strict_monotonicity "cs" "a" "a.pdf" "T" "2501" "2025-01-15"
     ["papers/cs/a.pdf", "papers/cs/b.pdf", "papers/math/c.pdf"] (by decide)⟩

/-- C6 — Identifier textual format: every new assignment, through either
registry front end, returns `yymm`, a dot, the sequence number
zero-padded to five digits, and the fixed suffix `v1`; with
`next_number = 42` in month `"2501"` this is `"2501.00042v1"`. -/
theorem c6_identifier_format (m m₂ : Manifest)
    (key cat stem fn ti yymm ds yymm₂ ds₂ : String)
    (h : lookupPaper m.papers key = none) :
    (get_corpxiv_id key cat stem fn ti yymm ds m).1.1
        = yymm ++ "." ++ pad5 m.next_number ++ "v1"
    ∧ (generate_corpxiv_id yymm₂ ds₂ m₂).1.1
        = yymm₂ ++ "." ++ pad5 m₂.next_number ++ "v1" := by
  constructor
  · unfold get_corpxiv_id; rw [h]
  · rfl

theorem c6_witness :
    lookupPaper (Manifest.mk 42 []).papers "papers/cs/x.pdf" = none
    ∧ (get_corpxiv_id "papers/cs/x.pdf" "cs" "x" "x.pdf" "T" "2501" "2025-01-15"
        (Manifest.mk 42 [])).1.1 = "2501.00042v1"
    ∧ (generate_corpxiv_id "2501" "2025-01-15" (Manifest.mk 42 [])).1.1
        = "2501.00042v1" := by
  have h := c6_identifier_format (Manifest.mk 42 []) (Manifest.mk 42 [])
    "papers/cs/x.pdf" "cs" "x" "x.pdf" "T" "2501" "2025-01-15" "2501" "2025-01-15"
    (by decide)
  exact ⟨by decide, by rw [h.1]; decide, by rw [h.2]; decide⟩

/-- C9 — Registry load behaviour: with no persisted file the load
returns the default state `{next_number := 1, papers := []}` and cannot
fail; with a present but unparsable file it fails with
`StorageCorruption` instead of falling back to the default. -/
theorem c9_load_behaviour (parse : String → Option Manifest) (s : String)
    (h : parse s = none) :
    load_manifest parse none = Except.ok freshManifest
    ∧ load_manifest parse (some s) = Except.error LoadErr.storageCorruption
    ∧ load_manifest parse (some s) ≠ Except.ok freshManifest := by
  refine ⟨rfl, ?_, ?_⟩ <;> simp [load_manifest, h]

theorem c9_witness :
    (fun _ : String => (none : Option Manifest)) "corrupt" = none
    ∧ (load_manifest (fun _ => none) none = Except.ok freshManifest
       ∧ load_manifest (fun _ => none) (some "corrupt")
           = Except.error LoadErr.storageCorruption
       ∧ load_manifest (fun _ => none) (some "corrupt")
           ≠ Except.ok freshManifest) :=
  ⟨rfl, c9_load_behaviour (fun _ => none) "corrupt" rfl⟩

/-- C10 — Content-hash definition and determinism: the duplicate-
detection hash is exactly the first 16 hexadecimal characters of the
SHA-256 digest of the raw bytes — a pure function of the byte content,
so equal bytes always hash equally — and its length of 16 hex
characters is 64 bits of the 64-hex-character (256-bit) digest.  The
digest function is pinned to SHA-256 by the FIPS 180-4 empty-message
test vector. -/
theorem c10_content_hash (b1 b2 : List Nat) (h : b1 = b2) :
    get_pdf_hash b1 = get_pdf_hash b2
    ∧ get_pdf_hash b1 = (sha256hex b1).take 16
    ∧ (get_pdf_hash b1).length = 16
    ∧ (sha256hex b1).length = 64
    ∧ sha256hex []
        = "e3b0c44298fc1c149afbf4c8996fb92427ae41e4649b934ca495991b7852b855" := by
  refine ⟨by rw [h], by rw [String.take_eq]; exact rfl, ?_, rfl, by decide⟩
  show ((sha256hex b1).toList.take 16).length = 16
  rw [List.length_take]
  rfl

theorem c10_witness :
    ([80, 68, 70] : List Nat) = [80, 68, 70]
    ∧ (get_pdf_hash [80, 68, 70] = get_pdf_hash [80, 68, 70]
       ∧ get_pdf_hash [80, 68, 70] = (sha256hex [80, 68, 70]).take 16
       ∧ (get_pdf_hash [80, 68, 70]).length = 16
       ∧ (sha256hex [80, 68, 70]).length = 64
       ∧ sha256hex []
           = "e3b0c44298fc1c149afbf4c8996fb92427ae41e4649b934ca495991b7852b855") :=
  ⟨rfl, c10_content_hash [80, 68, 70] [80, 68, 70] rfl⟩

/-- `validate_submission` accepts exactly when it collected no error:
`valid` is by construction the emptiness of the error list. -/
theorem validate_valid_isEmpty (e : ExtractionResult) (b : List Nat)
    (ps : List Paper) (pg : Except String Nat) (m : Manifest) :
    (validate_submission e b ps pg m).valid
      = (validate_submission e b ps pg m).errors.isEmpty := rfl

/-- A 55-word abstract used to drive the pipeline past validation. -/
def demoAbstract : String := String.intercalate " " (List.replicate 55 "lorem")

set_option maxRecDepth 8000 in
/-- C2 — the claim is refuted by the code: on a run whose validation
succeeds and whose identifier is minted by `generate_corpxiv_id`, a
failure of the very next step (`stamp_pdf`) escapes `process_paper`
before `save_manifest` runs (source order: stamp, landing page,
`papers.yml`, then `save_manifest`), so the persisted registry still
holds the initial `next_number = 1` and the minted identifier is
silently lost. -/
theorem c2_registry_lost_on_stamp_failure :
    (process_paper (fun s => s) (some "A Sufficiently Long Title")
        (some "Ann Smith") "" "cs" none none (some demoAbstract)
        [] (Except.ok 1) "2501" "2025-01-15"
        { stampOk := false } (Disk.mk freshManifest [] [] [] none)).1
      = Except.error PyError.stampRaised
    ∧ (process_paper (fun s => s) (some "A Sufficiently Long Title")
        (some "Ann Smith") "" "cs" none none (some demoAbstract)
        [] (Except.ok 1) "2501" "2025-01-15"
        { stampOk := false } (Disk.mk freshManifest [] [] [] none)).2.manifest.next_number
      = 1
    ∧ (process_paper (fun s => s) (some "A Sufficiently Long Title")
        (some "Ann Smith") "" "cs" none none (some demoAbstract)
        [] (Except.ok 1) "2501" "2025-01-15"
        { stampOk := false } (Disk.mk freshManifest [] [] [] none)).2
      = Disk.mk freshManifest [] [] [] none := by
  refine ⟨?_, ?_, ?_⟩ <;> rfl

/-- C4 — Rejection consumes nothing: whenever validation collects at
least one error, `process_paper` returns the structured rejection built
from the validation outcome and leaves the persistent state — the
registry (hence `next_number`), the paper index, and every artifact —
exactly as it was. -/
theorem c4_rejection_consumes_nothing (nfkd : String → String)
    (mt ma : Option String) (text cat : String)
    (tOv : Option String) (aOv : Option (List String)) (abOv : Option String)
    (bytes : List Nat) (pages : Except String Nat) (yymm ds : String)
    (env : Env) (disk : Disk)
    (h : (validate_submission (applyOverrides (extract_metadata mt ma text) tOv aOv abOv)
        bytes disk.papers pages disk.manifest).errors ≠ []) :
    process_paper nfkd mt ma text cat tOv aOv abOv bytes pages yymm ds env disk
      = (Except.ok (ProcResult.error
          (validate_submission (applyOverrides (extract_metadata mt ma text) tOv aOv abOv)
            bytes disk.papers pages disk.manifest).errors
          (validate_submission (applyOverrides (extract_metadata mt ma text) tOv aOv abOv)
            bytes disk.papers pages disk.manifest).warnings
          (applyOverrides (extract_metadata mt ma text) tOv aOv abOv)),
        disk) := by
  have hv : (validate_submission (applyOverrides (extract_metadata mt ma text) tOv aOv abOv)
      bytes disk.papers pages disk.manifest).valid = false := by
    rw [validate_valid_isEmpty]
    cases hE : (validate_submission (applyOverrides (extract_metadata mt ma text) tOv aOv abOv)
        bytes disk.papers pages disk.manifest).errors with
    | nil => exact absurd hE h
    | cons a t => rfl
  simp only [process_paper]
  rw [hv]
  simp

theorem c4_witness :
    (validate_submission
        (applyOverrides
          (extract_metadata (some "A Perfectly Fine Title") (some "Ann Smith") "")
          none none (some "one two three four five six seven eight nine ten"))
        [] (Disk.mk freshManifest [] [] [] none).papers (Except.ok 1)
        (Disk.mk freshManifest [] [] [] none).manifest).errors ≠ []
    ∧ process_paper (fun s => s) (some "A Perfectly Fine Title") (some "Ann Smith")
        "" "cs" none none (some "one two three four five six seven eight nine ten")
        [] (Except.ok 1) "2501" "2025-01-15" (Env.mk true true true true)
        (Disk.mk freshManifest [] [] [] none)
      = (Except.ok (ProcResult.error
          (validate_submission
            (applyOverrides
              (extract_metadata (some "A Perfectly Fine Title") (some "Ann Smith") "")
              none none (some "one two three four five six seven eight nine ten"))
            [] (Disk.mk freshManifest [] [] [] none).papers (Except.ok 1)
            (Disk.mk freshManifest [] [] [] none).manifest).errors
          (validate_submission
            (applyOverrides
              (extract_metadata (some "A Perfectly Fine Title") (some "Ann Smith") "")
              none none (some "one two three four five six seven eight nine ten"))
            [] (Disk.mk freshManifest [] [] [] none).papers (Except.ok 1)
            (Disk.mk freshManifest [] [] [] none).manifest).warnings
          (applyOverrides
            (extract_metadata (some "A Perfectly Fine Title") (some "Ann Smith") "")
            none none (some "one two three four five six seven eight nine ten"))),
        Disk.mk freshManifest [] [] [] none) :=
  ⟨by decide,
   c4_rejection_consumes_nothing (fun s => s) (some "A Perfectly Fine Title")
     (some "Ann Smith") "" "cs" none none
     (some "one two three four five six seven eight nine ten")
     [] (Except.ok 1) "2501" "2025-01-15" (Env.mk true true true true)
     (Disk.mk freshManifest [] [] [] none) (by decide)⟩

/-- C5 — Validator composition and acceptance condition: on a record
with a 5-character title, no authors, a 200-word abstract, no duplicate
hash and a readable one-page document, `validate_submission` collects
exactly the title error and exactly the authors warning — every rule
was evaluated, only the title rule failed, and the warning does not
block anything beyond the errors do — with `accepted = false`, and
acceptance is exactly emptiness of the error list. -/
theorem c5_guardrail_composition (e : ExtractionResult) (bytes : List Nat)
    (papers : List Paper) (pages : Except String Nat) (m : Manifest)
    (ht : e.title.length = 5) (ha : e.authors = [])
    (hw : (pySplitWs e.abstract).length = 200)
    (hd : papers.any (fun p => p.hash = get_pdf_hash bytes) = false)
    (hp : pages = Except.ok 1) :
    (validate_submission e bytes papers pages m).errors
        = ["Title too short or missing (minimum 10 characters)"]
    ∧ (validate_submission e bytes papers pages m).warnings
        = ["Could not extract authors — please provide manually"]
    ∧ (validate_submission e bytes papers pages m).valid = false
    ∧ (validate_submission e bytes papers pages m).valid
        = (validate_submission e bytes papers pages m).errors.isEmpty := by
  have habs : ¬ e.abstract = "" := by
    intro h0
    rw [h0] at hw
    exact absurd hw (by decide)
  have htne : ¬ e.title = "" := by
    intro h0
    rw [h0] at ht
    exact absurd ht (by decide)
  refine ⟨?_, ?_, ?_, validate_valid_isEmpty e bytes papers pages m⟩ <;>
    simp [validate_submission, MIN_TITLE_LENGTH, MIN_ABSTRACT_WORDS,
      ht, ha, hw, hd, hp, habs] <;> rfl

set_option maxRecDepth 8000 in
theorem c5_witness :
    ((ExtractionResult.mk "Tiny!" [] (joinWith " " (List.replicate 200 "w")) "" (ConfidenceMap.mk none none none)).title).length = 5
    ∧ (ExtractionResult.mk "Tiny!" [] (joinWith " " (List.replicate 200 "w")) "" (ConfidenceMap.mk none none none)).authors = []
    ∧ (pySplitWs (ExtractionResult.mk "Tiny!" [] (joinWith " " (List.replicate 200 "w")) "" (ConfidenceMap.mk none none none)).abstract).length = 200
    ∧ ([] : List Paper).any (fun p => p.hash = get_pdf_hash []) = false
    ∧ (Except.ok 1 : Except String Nat) = Except.ok 1
    ∧ ((validate_submission (ExtractionResult.mk "Tiny!" [] (joinWith " " (List.replicate 200 "w")) "" (ConfidenceMap.mk none none none)) [] [] (Except.ok 1) freshManifest).errors
          = ["Title too short or missing (minimum 10 characters)"]
       ∧ (validate_submission (ExtractionResult.mk "Tiny!" [] (joinWith " " (List.replicate 200 "w")) "" (ConfidenceMap.mk none none none)) [] [] (Except.ok 1) freshManifest).warnings
          = ["Could not extract authors — please provide manually"]
       ∧ (validate_submission (ExtractionResult.mk "Tiny!" [] (joinWith " " (List.replicate 200 "w")) "" (ConfidenceMap.mk none none none)) [] [] (Except.ok 1) freshManifest).valid = false
       ∧ (validate_submission (ExtractionResult.mk "Tiny!" [] (joinWith " " (List.replicate 200 "w")) "" (ConfidenceMap.mk none none none)) [] [] (Except.ok 1) freshManifest).valid
          = (validate_submission (ExtractionResult.mk "Tiny!" [] (joinWith " " (List.replicate 200 "w")) "" (ConfidenceMap.mk none none none)) [] [] (Except.ok 1) freshManifest).errors.isEmpty) :=
  ⟨by decide, by decide, by decide, by decide, rfl,
   c5_guardrail_composition
     (ExtractionResult.mk "Tiny!" [] (joinWith " " (List.replicate 200 "w")) "" (ConfidenceMap.mk none none none))
     [] [] (Except.ok 1) freshManifest
     (by decide) (by decide) (by decide) (by decide) rfl⟩

/-- C7 — Extraction totality: `extract` is a total function (absence of
data is a representable outcome, not an exception); on empty metadata
and empty first-page text it yields the empty title, the empty author
sequence, the empty abstract, with confidence `parsed`/`parsed`/
`not_found`; and on every input each field carries a confidence marker,
the abstract's being `not_found` exactly when the abstract is absent. -/
theorem c7_extraction_total :
    ((extract_metadata (some "") (some "") "").title = ""
     ∧ (extract_metadata (some "") (some "") "").authors = []
     ∧ (extract_metadata (some "") (some "") "").abstract = ""
     ∧ (extract_metadata (some "") (some "") "").confidence
         = ConfidenceMap.mk (some Confidence.parsed) (some Confidence.parsed)
             (some Confidence.notFound))
    ∧ ∀ (mt ma : Option String) (t : String),
        ((extract_metadata mt ma t).confidence.title).isSome = true
        ∧ ((extract_metadata mt ma t).confidence.authors).isSome = true
        ∧ (extract_metadata mt ma t).confidence.abstract
            = some (if (extract_metadata mt ma t).abstract = ""
                    then Confidence.notFound else Confidence.parsed) := by
  refine ⟨⟨rfl, rfl, rfl, rfl⟩, ?_⟩
  intro mt ma t
  cases mt <;> cases ma <;>
    simp only [extract_metadata] <;>
    split_ifs <;>
    simp_all

/-- The `.*\d{4}.*@` test only ever fires on a line that contains `'@'`. -/
theorem digits4ThenAt_mem : ∀ cs : List Char, digits4ThenAt cs = true → '@' ∈ cs := by
  intro cs
  induction cs with
  | nil => intro h; simp [digits4ThenAt] at h
  | cons c cs ih =>
    intro h
    simp only [digits4ThenAt, Bool.or_eq_true] at h
    rcases h with h | h
    · match cs, h with
      | b :: d :: e :: rest, h =>
        simp only [Bool.and_eq_true] at h
        have hm : '@' ∈ rest := by
          have hc := h.2
          simpa using hc
        simp [hm]
    · exact List.mem_cons_of_mem c (ih h)

/-- The email break of the title scan is exactly "the line contains
`'@'`": the second regex is subsumed by the first test. -/
theorem lineEmailBreak_eq_any (l : String) :
    lineEmailBreak l = l.toList.any (fun c => c = '@') := by
  unfold lineEmailBreak
  cases hA : l.toList.any (fun c => c = '@') with
  | true => simp [hA]
  | false =>
    simp only [Bool.false_or]
    cases hD : digits4ThenAt l.toList with
    | false => rfl
    | true =>
      exfalso
      have hm := digits4ThenAt_mem _ hD
      have : l.toList.any (fun c => c = '@') = true :=
        List.any_eq_true.mpr ⟨'@', hm, by simp⟩
      rw [hA] at this
      exact Bool.noConfusion this

/-- The accumulator loop of `extract_title_from_text`, re-expressed as
take-while / filter / take-3. -/
theorem titleLoop_eq (ls : List String) :
    ∀ acc : List String, acc.length < 3 →
      titleLoop ls acc = acc.reverse ++
        ((ls.takeWhile (fun l => !titleStop l)).filter titleKeep).take
          (3 - acc.length) := by
  induction ls with
  | nil => intro acc _; simp [titleLoop]
  | cons l ls ih =>
    intro acc hacc
    by_cases hA : lineStartsAbstract l = true
    · have hstop : titleStop l = true := by simp [titleStop, hA]
      rw [@List.takeWhile_cons_of_neg _ (fun s => !titleStop s) l ls (by simp [hstop])]
      simp [titleLoop, hA]
    · by_cases hE : lineEmailBreak l = true
      · have hAny : l.toList.any (fun c => c = '@') = true := by
          rw [← lineEmailBreak_eq_any]; exact hE
        have hstop : titleStop l = true := by
          unfold titleStop; rw [hAny]; simp
        rw [@List.takeWhile_cons_of_neg _ (fun s => !titleStop s) l ls (by simp [hstop])]
        simp [titleLoop, hA, hE]
      · simp only [Bool.not_eq_true] at hE
        have hAny : l.toList.any (fun c => c = '@') = false := by
          rw [← lineEmailBreak_eq_any, hE]
        by_cases hI : lineStartsInstitution l = true
        · have hstop : titleStop l = true := by simp [titleStop, hI]
          rw [@List.takeWhile_cons_of_neg _ (fun s => !titleStop s) l ls (by simp [hstop])]
          simp [titleLoop, hA, hE, hI]
        · simp only [Bool.not_eq_true] at hA hI
          have hstop : titleStop l = false := by
            unfold titleStop; rw [hA, hAny, hI]; rfl
          rw [@List.takeWhile_cons_of_pos _ (fun s => !titleStop s) l ls (by simp [hstop])]
          by_cases hlen : l.length < 5
          · have hkeep : titleKeep l = false := by
              simp only [titleKeep, decide_eq_false_iff_not]; omega
            rw [List.filter_cons_of_neg (by simp [hkeep])]
            have hL : titleLoop (l :: ls) acc = titleLoop ls acc := by
              simp only [titleLoop, hA, hE, hI]
              simp [hlen]
            rw [hL, ih acc hacc]
          · have hkeep : titleKeep l = true := by
              simp only [titleKeep, decide_eq_true_eq]; omega
            rw [List.filter_cons_of_pos (by simp [hkeep])]
            by_cases h2 : acc.length = 2
            · have hL : titleLoop (l :: ls) acc = (l :: acc).reverse := by
                simp only [titleLoop, hA, hE, hI]
                simp only [List.length_cons, h2]
                simp [hlen]
              rw [hL]
              rw [show (3 - acc.length) = 1 by omega]
              simp [List.take_succ_cons]
            · have hL : titleLoop (l :: ls) acc = titleLoop ls (l :: acc) := by
                simp only [titleLoop, hA, hE, hI]
                have h3 : ¬ 3 ≤ (l :: acc).length := by
                  simp only [List.length_cons]; omega
                simp [hlen, h3, show ¬ 2 ≤ acc.length by omega]
              rw [hL, ih (l :: acc) (by simp only [List.length_cons]; omega)]
              rw [show (3 - acc.length) = (3 - (l :: acc).length) + 1 by
                simp only [List.length_cons]; omega]
              simp [List.take_succ_cons, List.reverse_cons]

/-- C8 — Title-from-text algorithm: the parsed title equals the spec's
description — scan the first 10 non-blank lines, stop at the first
abstract-header / email-marker / institutional line, skip lines shorter
than 5 characters, keep at most 3 lines, join with single spaces,
collapse whitespace, and truncate to 200 characters with an ellipsis
marker. -/
theorem c8_title_from_text_algorithm (text : String) :
    extract_title_from_text text = titleFromTextSpec text := by
  unfold extract_title_from_text titleFromTextSpec
  by_cases hl : nonBlankLines text = []
  · simp only [hl]
    rfl
  · simp only [hl, if_neg, if_false]
    rw [titleLoop_eq ((nonBlankLines text).take 10) [] (by decide)]
    simp

end CorpXiv
